import Mathlib

/-!
Verification of the test-specification parser (`parser.py`).

The development shallowly embeds the parser: Python values flowing through
the parser become the inductive type `Py`; the stream of lexical tokens of
the CPython `tokenize` module, restricted to the character set exercised by
the inputs under study, becomes `tokenizePy`; the `eval` call on structural
literals becomes `evalPy`, a model of Python expression evaluation on the
fragment those call sites exercise (list/dict displays, numbers, strings,
booleans, and the binary `+` operator).  The parser functions
`parse_values`, `parse_line_assignments` and `parse_stream` are direct
translations of the source, including its use of the `ASSIGNMENT = None`
sentinel, its shell-like merging of adjacent tokens, and its
exception-driven multi-line accumulation.
-/

set_option maxRecDepth 100000

namespace Autotest

/-- Python values manipulated by the parser.  `pyNone` doubles as the
`ASSIGNMENT = None` sentinel, exactly as in the source. -/
inductive Py where
  | pyNone : Py
  | str : String → Py
  | int : Int → Py
  | bool : Bool → Py
  | list : List Py → Py
  | dict : List (Py × Py) → Py

/-- `value == ASSIGNMENT` in the source, i.e. comparison against `None`. -/
def isMarker : Py → Bool
  | Py.pyNone => true
  | _ => false

/-- `values[0] == ASSIGNMENT` / `values[1:2] == [ASSIGNMENT]`-style tests:
the head of a list slice is the `None` sentinel. -/
def isMarkerHead (vs : List Py) : Bool :=
  match vs with
  | Py.pyNone :: _ => true
  | _ => false

/-- `values[-1] == ASSIGNMENT` on a nonempty list. -/
def lastIsMarker (vs : List Py) : Bool :=
  match vs.getLast? with
  | some Py.pyNone => true
  | _ => false

/-- `stringize` from the source: convert to `str` all sub-objects which are
not dicts or lists.  Dictionary keys are left untouched, as in the source.
The fuel bounds the nesting depth; every call site supplies a fuel larger
than the depth of any value it can receive (one nesting level of an `eval`
result consumes at least one bracket character of the evaluated text), so
the `0` case is unreachable there. -/
def stringize : Nat → Py → Py
  | 0, x => x
  | fuel+1, x =>
    match x with
    | Py.dict kvs => Py.dict (kvs.map (fun kv => (kv.1, stringize fuel kv.2)))
    | Py.list xs => Py.list (xs.map (fun v => stringize fuel v))
    | Py.str s => Py.str s
    | Py.pyNone => Py.str "None"
    | Py.int n => Py.str (toString n)
    | Py.bool b => Py.str (if b then "True" else "False")

/-- ASCII model of Python's `str.isidentifier` (inputs under study are
ASCII). -/
def isIdentStart (c : Char) : Bool := c.isAlpha || c = '_'

def isIdentChar (c : Char) : Bool := c.isAlphanum || c = '_'

def isIdentifier (s : String) : Bool :=
  match s.data with
  | [] => false
  | c :: r => isIdentStart c && r.all isIdentChar

/-! ### Model of `eval` on structural literals

`parse_values` calls Python's `eval` on the remainder of the statement text
whenever `[` or `{` directly follows an assignment marker.  `evalPy` models
the evaluation of that text for the expression fragment those call sites
exercise: list and dict displays, integer, string and boolean literals,
`None`, and the binary `+` operator (on numbers, strings and lists).  A
`none` result models an exception that `parse_values` catches as
`SyntaxError` (any test outside this fragment, e.g. trailing junk after an
expression or an unclosed bracket, raises `SyntaxError` in Python as well).
-/

/-- Whitespace skipped between expression tokens; inside the call sites'
inputs a newline only occurs inside brackets, where Python also treats it
as insignificant. -/
def skipWs (cs : List Char) : List Char :=
  cs.dropWhile (fun c => c = ' ' || c = '\n' || c = '\t')

/-- Python's `+` on the value shapes the fragment produces.  Mismatched
operands raise `TypeError` in Python, which `parse_values` does not catch;
no input under study reaches that case, and the model folds it into
`none`. -/
def pyAdd : Py → Py → Option Py
  | Py.int a, Py.int b => some (Py.int (a + b))
  | Py.str a, Py.str b => some (Py.str (a ++ b))
  | Py.list a, Py.list b => some (Py.list (a ++ b))
  | _, _ => Option.none

def digitsToNat (ds : List Char) : Nat :=
  ds.foldl (fun n c => n * 10 + (c.toNat - '0'.toNat)) 0

/-- `kwMatch kw cs` holds when `cs` starts with the keyword `kw` not
followed by a further identifier character. -/
def kwMatch (kw : String) (cs : List Char) : Bool :=
  decide (cs.take kw.length = kw.data) &&
    (match cs.drop kw.length with
     | [] => true
     | c :: _ => !isIdentChar c)

/-- Nonterminals of the recursive-descent evaluator. -/
inductive EMode where
  | expr
  | term
  | plusLoop (a : Py)
  | listElems (acc : List Py)
  | dictElems (acc : List (Py × Py))

/-- One evaluator for all nonterminals, fuelled to stay structurally
recursive; every recursive call burns one unit, and call sites supply
fuel proportional to the input length. -/
def evalGo : Nat → EMode → List Char → Option (Py × List Char)
  | 0, _, _ => Option.none
  | fuel+1, EMode.expr, cs =>
    match evalGo fuel EMode.term cs with
    | Option.none => Option.none
    | some (a, r) => evalGo fuel (EMode.plusLoop a) r
  | fuel+1, EMode.plusLoop a, cs =>
    (match skipWs cs with
     | '+' :: rest =>
       (match evalGo fuel EMode.term rest with
        | Option.none => Option.none
        | some (b, r) =>
          match pyAdd a b with
          | Option.none => Option.none
          | some ab => evalGo fuel (EMode.plusLoop ab) r)
     | rest => some (a, rest))
  | fuel+1, EMode.term, cs =>
    (match skipWs cs with
     | [] => Option.none
     | c :: rest =>
       if c.isDigit then
         let ds := (c :: rest).takeWhile Char.isDigit
         some (Py.int (Int.ofNat (digitsToNat ds)), (c :: rest).drop ds.length)
       else if c = '[' then evalGo fuel (EMode.listElems []) rest
       else if c = '{' then evalGo fuel (EMode.dictElems []) rest
       else if c = '\'' || c = '"' then
         let inner := rest.takeWhile (fun x => !(x = c) && !(x = '\n'))
         (match rest.drop inner.length with
          | q :: r2 =>
            if q = c then some (Py.str (String.mk inner), r2) else Option.none
          | [] => Option.none)
       else if kwMatch "True" (c :: rest) then
         some (Py.bool true, (c :: rest).drop 4)
       else if kwMatch "False" (c :: rest) then
         some (Py.bool false, (c :: rest).drop 5)
       else if kwMatch "None" (c :: rest) then
         some (Py.pyNone, (c :: rest).drop 4)
       else Option.none)
  | fuel+1, EMode.listElems acc, cs =>
    (match skipWs cs with
     | ']' :: rest => some (Py.list acc.reverse, rest)
     | cs' =>
       match evalGo fuel EMode.expr cs' with
       | Option.none => Option.none
       | some (v, r) =>
         match skipWs r with
         | ',' :: r2 => evalGo fuel (EMode.listElems (v :: acc)) r2
         | ']' :: r2 => some (Py.list (v :: acc).reverse, r2)
         | _ => Option.none)
  | fuel+1, EMode.dictElems acc, cs =>
    (match skipWs cs with
     | '}' :: rest => some (Py.dict acc.reverse, rest)
     | cs' =>
       match evalGo fuel EMode.expr cs' with
       | Option.none => Option.none
       | some (k, r) =>
         match skipWs r with
         | ':' :: r2 =>
           (match evalGo fuel EMode.expr r2 with
            | Option.none => Option.none
            | some (v, r3) =>
              match skipWs r3 with
              | ',' :: r4 => evalGo fuel (EMode.dictElems ((k, v) :: acc)) r4
              | '}' :: r4 => some (Py.dict ((k, v) :: acc).reverse, r4)
              | _ => Option.none)
         | _ => Option.none)

/-- Model of `eval(text)` at the structural-literal call site: evaluate one
expression and require that nothing but whitespace follows it. -/
def evalPy (text : String) : Option Py :=
  match evalGo (4 * text.length + 8) EMode.expr text.data with
  | Option.none => Option.none
  | some (v, r) => if (skipWs r).isEmpty then some v else Option.none

/-! ### Model of `tokenize.generate_tokens`

The statement texts under study use names, numbers, single-character
operators, `==`, comments, simple quoted strings, spaces and newlines.
`tokenizePy` models CPython's tokenizer on that character set:

* `NEWLINE` and `NL` are collapsed into one kind `nl` — both are in the
  parser's `IGNORE_TOKENS` and their text `"\n"` contains no `=`, so the
  parser cannot distinguish them;
* `ENCODING`, `INDENT`, `DEDENT` and `ENDMARKER` are not emitted — all are
  ignored and their texts never contain `=` (`ENDMARKER`'s empty text is
  additionally dropped by the `not token.string` test before any other
  check that could see it);
* the tokenizer is a generator which the parser can abandon via `break`;
  this is modelled by returning the token list together with a flag that
  is `true` when the generator would raise `TokenError` after the listed
  tokens (an open bracket at end of input).
-/

inductive TokType where
  | name | number | op | strlit | comment | nl | errortoken
deriving DecidableEq

/-- A lexical token: kind, raw text, and start/end position (`row` from 1,
`col` from 0), as produced by `tokenize.generate_tokens`. -/
structure Tok where
  ttype : TokType
  tstr : String
  sr : Nat
  sc : Nat
  er : Nat
  ec : Nat

def isOpenBracket (c : Char) : Bool := c = '[' || c = '{' || c = '('

def isCloseBracket (c : Char) : Bool := c = ']' || c = '}' || c = ')'

def isSingleOp (c : Char) : Bool :=
  c = ',' || c = ':' || c = '+' || c = '-' || c = '*' || c = '/' ||
  c = '.' || c = ';' || c = '%'

/-- Fuelled scanner: `tokGo fuel cs row col depth` returns the tokens of
`cs` and whether the generator raises `TokenError` at end of input (an
unclosed bracket).  Each step consumes at least one character, so fuel
`cs.length + 1` suffices. -/
def tokGo : Nat → List Char → Nat → Nat → Nat → List Tok × Bool
  | 0, _, _, _, _ => ([], true)
  | _+1, [], _, _, depth => ([], decide (0 < depth))
  | fuel+1, c :: rest, r, col, depth =>
    if c = ' ' || c = '\t' then
      tokGo fuel rest r (col + 1) depth
    else if c = '\n' then
      let out := tokGo fuel rest (r + 1) 0 depth
      (⟨TokType.nl, "\n", r, col, r, col + 1⟩ :: out.1, out.2)
    else if c = '#' then
      let com := (c :: rest).takeWhile (fun x => !(x = '\n'))
      let out := tokGo fuel ((c :: rest).drop com.length) r (col + com.length) depth
      (⟨TokType.comment, String.mk com, r, col, r, col + com.length⟩ :: out.1, out.2)
    else if isIdentStart c then
      let w := (c :: rest).takeWhile isIdentChar
      let out := tokGo fuel ((c :: rest).drop w.length) r (col + w.length) depth
      (⟨TokType.name, String.mk w, r, col, r, col + w.length⟩ :: out.1, out.2)
    else if c.isDigit then
      let w := (c :: rest).takeWhile Char.isDigit
      let out := tokGo fuel ((c :: rest).drop w.length) r (col + w.length) depth
      (⟨TokType.number, String.mk w, r, col, r, col + w.length⟩ :: out.1, out.2)
    else if c = '=' then
      (match rest with
       | '=' :: rest2 =>
         let out := tokGo fuel rest2 r (col + 2) depth
         (⟨TokType.op, "==", r, col, r, col + 2⟩ :: out.1, out.2)
       | _ =>
         let out := tokGo fuel rest r (col + 1) depth
         (⟨TokType.op, "=", r, col, r, col + 1⟩ :: out.1, out.2))
    else if isOpenBracket c then
      let out := tokGo fuel rest r (col + 1) (depth + 1)
      (⟨TokType.op, String.mk [c], r, col, r, col + 1⟩ :: out.1, out.2)
    else if isCloseBracket c then
      let out := tokGo fuel rest r (col + 1) (depth - 1)
      (⟨TokType.op, String.mk [c], r, col, r, col + 1⟩ :: out.1, out.2)
    else if isSingleOp c then
      let out := tokGo fuel rest r (col + 1) depth
      (⟨TokType.op, String.mk [c], r, col, r, col + 1⟩ :: out.1, out.2)
    else if c = '\'' || c = '"' then
      let inner := rest.takeWhile (fun x => !(x = c) && !(x = '\n'))
      (match rest.drop inner.length with
       | q :: _ =>
         if q = c then
           let w := c :: inner ++ [c]
           let out := tokGo fuel (rest.drop (inner.length + 1)) r (col + w.length) depth
           (⟨TokType.strlit, String.mk w, r, col, r, col + w.length⟩ :: out.1, out.2)
         else
           -- unterminated quote before end of line: ERRORTOKEN (unused by
           -- the inputs under study)
           let out := tokGo fuel rest r (col + 1) depth
           (⟨TokType.errortoken, String.mk [c], r, col, r, col + 1⟩ :: out.1, out.2)
       | [] =>
         let out := tokGo fuel rest r (col + 1) depth
         (⟨TokType.errortoken, String.mk [c], r, col, r, col + 1⟩ :: out.1, out.2))
    else
      let out := tokGo fuel rest r (col + 1) depth
      (⟨TokType.errortoken, String.mk [c], r, col, r, col + 1⟩ :: out.1, out.2)

/-- Tokenize a (possibly multi-line) accumulated statement buffer. -/
def tokenizePy (s : String) : List Tok × Bool :=
  tokGo (s.length + 1) s.data 1 0 0

/-! ### `parse_values` -/

/-- `TestSpecificationError`, distinguished by message as in §7 of the
specification; each constructor carries the data interpolated into the
source's error string. -/
inductive SpecErr where
  /-- `"{source}:{line}:{col}: syntax error"` (an `ERRORTOKEN`). -/
  | lexError (source : String) (line : Nat) (col : Nat)
  /-- `"{source}:{line}:{col}: syntax error in assignment"` (a non-string
  token of length > 1 containing `=`). -/
  | eqInToken (source : String) (line : Nat) (col : Nat)
  /-- `"{source}:{line}: syntax error in assignment"` from the resolver. -/
  | badAssignment (source : String) (line : Nat)
  /-- multiple assignments to one variable within a statement. -/
  | multipleAssignment (source : String) (line : Nat) (name : String)
  /-- multiple labels within a statement. -/
  | multipleLabels (source : String) (line : Nat)
  /-- invalid test specification (non-string, non-marker item). -/
  | invalidSpec (source : String) (line : Nat)
  /-- `"{source}:{line} unclosed expression"` at end of input. -/
  | unclosedExpr (source : String) (line : Nat)
deriving DecidableEq

/-- The pending `last_token` of the `parse_values` loop.  A merged
`FakeToken` has type `STRING` and text `repr(chars1 + chars2)`, and
`get_token_characters` recovers exactly the concatenation via
`ast.literal_eval`; the model therefore carries the decoded characters
directly together with the span. -/
structure LastTok where
  sr : Nat
  sc : Nat
  er : Nat
  ec : Nat
  chars : String

/-- `get_token_characters`: a `STRING` token yields its literal content
(the model's simple one-line strings have no escapes, so stripping the
quotes is `ast.literal_eval`); any other token yields its raw text. -/
def get_token_characters (t : Tok) : String :=
  if t.ttype = TokType.strlit then
    String.mk (t.tstr.data.drop 1).dropLast
  else t.tstr

def mkLast (t : Tok) : LastTok :=
  ⟨t.sr, t.sc, t.er, t.ec, get_token_characters t⟩

/-- `FakeToken(last_token, token)`: shell-like merging of adjacent
tokens. -/
def mergeLast (l : LastTok) (t : Tok) : LastTok :=
  ⟨l.sr, l.sc, t.er, t.ec, l.chars ++ get_token_characters t⟩

/-- `values.append(get_token_characters(last_token))` when a token is
pending. -/
def flushLast (vs : List Py) : Option LastTok → List Py
  | some l => vs ++ [Py.str l.chars]
  | Option.none => vs

/-- Tokens whose type is in `IGNORE_TOKENS` (of the kinds the model
emits). -/
def isIgnored (t : TokType) : Bool :=
  match t with
  | TokType.comment => true
  | TokType.nl => true
  | _ => false

/-- Outcome of one attempt to extract the value list from a statement
buffer: success, a fatal `TestSpecificationError`, or a caught
`TokenError`/`SyntaxError` that makes the outer loop accumulate another
line. -/
inductive PRes where
  | ok (vs : List Py)
  | fatal (e : SpecErr)
  | retry

/-- The body of the `for token in tokenize.generate_tokens(...)` loop of
`parse_values`, including the trailing `if last_token:` flush.  `combined`
is the accumulated statement buffer (used for the `eval` slice), `lineNo`
the number of the physical line currently being added (used in error
messages), and `genErr` whether the token stream ends in a `TokenError`. -/
def procToks (source : String) (lineNo : Nat) (combined : String)
    (genErr : Bool) : List Tok → List Py → Option LastTok → PRes
  | [], values, lastTok =>
    -- generator exhausted: a pending TokenError is raised before the
    -- flush and caught by the accumulation handler
    if genErr then PRes.retry else PRes.ok (flushLast values lastTok)
  | t :: ts, values, lastTok =>
    if t.ttype = TokType.errortoken then
      PRes.fatal (SpecErr.lexError source lineNo t.sc)
    else if !(t.ttype = TokType.strlit) && t.tstr.data.any (fun c => c = '=') &&
        decide (1 < t.tstr.length) then
      PRes.fatal (SpecErr.eqInToken source lineNo t.sc)
    else if t.tstr.isEmpty || isIgnored t.ttype then
      procToks source lineNo combined genErr ts values lastTok
    else if (t.tstr = "[" || t.tstr = "\x7b") && !values.isEmpty &&
        lastIsMarker values && lastTok.isNone then
      -- structural literal: evaluate the remainder of the statement text
      -- and stop consuming tokens (`break`)
      (match evalPy (combined.drop t.sc) with
       | some v => PRes.ok (values ++ [stringize (combined.length + 1) v])
       | Option.none => PRes.retry)
    else if lastTok.isNone ||
        (match lastTok with
         | some l => !((l.er, l.ec) = (t.sr, t.sc)) || t.tstr = "="
         | Option.none => true) then
      let values := flushLast values lastTok
      if t.tstr = "=" then
        procToks source lineNo combined genErr ts (values ++ [Py.pyNone]) Option.none
      else
        procToks source lineNo combined genErr ts values (some (mkLast t))
    else
      (match lastTok with
       | some l => procToks source lineNo combined genErr ts values (some (mergeLast l t))
       | Option.none => PRes.retry)  -- unreachable: lastTok is some here

/-- Worker for `splitLines`, carrying the reversed current line. -/
def splitLinesAux : List Char → List Char → List String
  | [], acc => if acc.isEmpty then [] else [String.mk acc.reverse]
  | c :: cs, acc =>
    if c = '\n' then String.mk (acc.reverse ++ ['\n']) :: splitLinesAux cs []
    else splitLinesAux cs (c :: acc)

/-- Split an input text into physical lines, each keeping its trailing
newline, as iterating a Python text stream does. -/
def splitLines (s : String) : List String :=
  splitLinesAux s.data []

/-- The line-accumulation loop of `parse_values`. -/
def parseValuesGo (source : String) :
    List String → Nat → String → Nat → List (Nat × List Py) →
    Except SpecErr (List (Nat × List Py))
  | [], _, combined, combNum, acc =>
    if combined.isEmpty then Except.ok acc
    else Except.error (SpecErr.unclosedExpr source combNum)
  | line :: rest, lineNo, combined, combNum, acc =>
    let combNum := if combined.isEmpty then lineNo else combNum
    let combined := combined ++ line
    let tk := tokenizePy combined
    (match procToks source lineNo combined tk.2 tk.1 [] Option.none with
     | PRes.fatal e => Except.error e
     | PRes.retry => parseValuesGo source rest (lineNo + 1) combined combNum acc
     | PRes.ok values =>
       parseValuesGo source rest (lineNo + 1) "" combNum (acc ++ [(combNum, values)]))

/-- `parse_values`: the list of `(line_number, value_list)` pairs of the
input text, or the first `TestSpecificationError`. -/
def parse_values (input : String) (source : String) :
    Except SpecErr (List (Nat × List Py)) :=
  parseValuesGo source (splitLines input) 1 "" 1 []

/-! ### `parse_line_assignments` -/

/-- A parameter mapping, modelling a Python `dict` as an insertion-ordered
association list with unique keys. -/
def ParamMap := List (String × Py)

/-- `m[k] = v`: replace in place if the key exists, else append. -/
def updateMap : ParamMap → String → Py → ParamMap
  | [], k, v => [(k, v)]
  | (k', v') :: rest, k, v =>
    if k' = k then (k, v) :: rest else (k', v') :: updateMap rest k v

/-- `k in m`. -/
def hasKey : ParamMap → String → Bool
  | [], _ => false
  | (k', _) :: rest, k => k' = k || hasKey rest k

/-- `m.get(k)`. -/
def lookupMap : ParamMap → String → Option Py
  | [], _ => Option.none
  | (k', v) :: rest, k => if k' = k then some v else lookupMap rest k

/-- `m.update(ps)`: fold the entries of `ps` into `m` in insertion
order. -/
def updateAll (m : ParamMap) (ps : ParamMap) : ParamMap :=
  ps.foldl (fun acc kv => updateMap acc kv.1 kv.2) m

/-- The greedy RHS loop
`while values and values[1:2] != [ASSIGNMENT]: rhs.append(values.pop(0))`:
returns the consumed run and the remaining values. -/
def greedyRHS : List Py → List Py × List Py
  | [] => ([], [])
  | v :: rest =>
    if isMarkerHead rest then ([], v :: rest)
    else
      let out := greedyRHS rest
      (v :: out.1, out.2)

/-- RHS extraction after an assignment marker (source lines 63–68): a
single item when only one item remains or the item two positions ahead is
the marker, otherwise the greedy run (a Python list). -/
def extractRHS (vs : List Py) : Py × List Py :=
  if vs.length = 1 || isMarkerHead (vs.drop 2) then
    (vs.headD Py.pyNone, vs.drop 1)
  else
    let out := greedyRHS vs
    (Py.list out.1, out.2)

/-- Python truthiness of the pending `last_word` (`if last_word:` is false
for `None` and for the empty string). -/
def lastWordTruthy : Option String → Bool
  | some w => !w.isEmpty
  | Option.none => false

/-- The `while values:` loop of `parse_line_assignments`.  The fuel is an
upper bound on the number of iterations; each iteration removes at least
the head of the list, so `values.length + 1` suffices. -/
def plaGo (source : String) (lineNo : Nat) :
    Nat → List Py → ParamMap → Option String → Except SpecErr ParamMap
  | 0, _, _, _ =>
    -- unreachable when the fuel exceeds the list length
    Except.error (SpecErr.badAssignment source lineNo)
  | _+1, [], assignments, lastWord =>
    if lastWordTruthy lastWord then
      if hasKey assignments "label" then
        Except.error (SpecErr.multipleLabels source lineNo)
      else
        Except.ok (updateMap assignments "label" (Py.str (lastWord.getD "")))
    else Except.ok assignments
  | fuel+1, v :: rest, assignments, lastWord =>
    if isMarker v then
      (match lastWord with
       | Option.none => Except.error (SpecErr.badAssignment source lineNo)
       | some w =>
         if w.isEmpty || !isIdentifier w || rest.isEmpty || isMarkerHead rest then
           Except.error (SpecErr.badAssignment source lineNo)
         else if hasKey assignments w then
           Except.error (SpecErr.multipleAssignment source lineNo w)
         else
           let out := extractRHS rest
           plaGo source lineNo fuel out.2 (updateMap assignments w out.1) Option.none)
    else
      (match v with
       | Py.str s =>
         if lastWordTruthy lastWord then
           if hasKey assignments "label" then
             Except.error (SpecErr.multipleLabels source lineNo)
           else
             plaGo source lineNo fuel rest
               (updateMap assignments "label" (Py.str (lastWord.getD ""))) (some s)
         else plaGo source lineNo fuel rest assignments (some s)
       | _ => Except.error (SpecErr.invalidSpec source lineNo))

/-- `parse_line_assignments`: the parameter mapping of one statement's
value list (`lineNo` is the statement's starting line, interpolated into
the source's `error_prefix`). -/
def parse_line_assignments (values : List Py) (source : String) (lineNo : Nat) :
    Except SpecErr ParamMap :=
  plaGo source lineNo (values.length + 1) values [] Option.none

/-! ### `parse_stream` -/

/-- Construction of one `TestDescriptor` (source lines 35–38): a copy of
the global state, the two provenance fields, then the statement's own
parameters merged over them. -/
def buildTest (globals : ParamMap) (source : String) (combNum : Nat)
    (params : ParamMap) : ParamMap :=
  updateAll
    (updateMap (updateMap globals "source_name" (Py.str source))
      "line_number" (Py.str (toString combNum)))
    params

/-- The body of the statement loop of `parse_stream`, acting on the state
`(global_variables, tests)`. -/
def stepAgg (source : String) (st : ParamMap × List ParamMap)
    (entry : Nat × List Py) : Except SpecErr (ParamMap × List ParamMap) :=
  if entry.2.isEmpty then Except.ok st
  else
    match parse_line_assignments entry.2 source entry.1 with
    | Except.error e => Except.error e
    | Except.ok params =>
      if hasKey params "label" then
        Except.ok (st.1, st.2 ++ [buildTest st.1 source entry.1 params])
      else
        Except.ok (updateAll st.1 params, st.2)

/-- Fold `stepAgg` over the statements. -/
def aggGo (source : String) :
    List (Nat × List Py) → ParamMap → List ParamMap →
    Except SpecErr (List ParamMap)
  | [], _, tests => Except.ok tests
  | e :: rest, globals, tests =>
    match stepAgg source (globals, tests) e with
    | Except.error err => Except.error err
    | Except.ok st => aggGo source rest st.1 st.2

/-- `parse_stream`: the ordered list of test descriptors of an input text,
or the first `TestSpecificationError`. -/
def parse_stream (input : String) (source : String) :
    Except SpecErr (List ParamMap) :=
  match parse_values input source with
  | Except.error e => Except.error e
  | Except.ok pv => aggGo source pv [] []

/-! ### Specification-side statement of RHS extraction (for C5)

The specification words the greedy rule as: the RHS consumes consecutive
items "until the lookahead shows the next-but-one item is
`AssignmentMarker`", i.e. it stops at the least count `n` after which the
remaining sequence is exhausted or has the marker as its second element.
`specExtractRHS` renders that wording directly, to be compared with the
code's `extractRHS`. -/

/-- After consuming `n` items of `vs`, the greedy RHS must stop: the rest
is exhausted or its next-but-one item is the marker. -/
def rhsStop (vs : List Py) (n : Nat) : Prop :=
  vs.length ≤ n ∨ isMarkerHead (vs.drop (n + 1)) = true

instance rhsStopDecidable (vs : List Py) : DecidablePred (rhsStop vs) :=
  fun n => by unfold rhsStop; infer_instance

theorem rhsStop_exists (vs : List Py) : ∃ n, rhsStop vs n :=
  ⟨vs.length, Or.inl (Nat.le_refl _)⟩

/-- The number of items the greedy RHS consumes, per the specification:
the least stopping point. -/
def specStop (vs : List Py) : Nat := Nat.find (rhsStop_exists vs)

/-- "the item two positions ahead is itself `AssignmentMarker`". -/
def isMarkerAt2 (vs : List Py) : Bool :=
  match vs.get? 2 with
  | some v => isMarker v
  | Option.none => false

/-- RHS extraction as the specification words it: a single item when only
one item remains or the item two positions ahead is the marker, otherwise
the run of the first `specStop vs` items. -/
def specExtractRHS (vs : List Py) : Py × List Py :=
  if vs.length = 1 || isMarkerAt2 vs then
    (vs.headD Py.pyNone, vs.tail)
  else
    (Py.list (vs.take (specStop vs)), vs.drop (specStop vs))

theorem isMarkerHead_drop_two (vs : List Py) :
    isMarkerHead (vs.drop 2) = isMarkerAt2 vs := by
  cases vs with
  | nil => rfl
  | cons a t =>
    cases t with
    | nil => rfl
    | cons b t2 =>
      cases t2 with
      | nil => rfl
      | cons c r => cases c <;> rfl

theorem rhsStop_succ_cons (v : Py) (rest : List Py) (n : Nat) :
    rhsStop (v :: rest) (n + 1) ↔ rhsStop rest n := by
  unfold rhsStop
  simp [Nat.succ_le_succ_iff]

theorem specStop_cons_of_not_marker (v : Py) (rest : List Py)
    (h : isMarkerHead rest = false) :
    specStop (v :: rest) = specStop rest + 1 := by
  have h0 : ¬ rhsStop (v :: rest) 0 := by
    unfold rhsStop
    simp [h]
  apply (Nat.find_eq_iff _).2
  constructor
  · exact (rhsStop_succ_cons v rest _).2 (Nat.find_spec (rhsStop_exists rest))
  · intro n hn
    cases n with
    | zero => exact h0
    | succ j =>
      intro hp
      exact Nat.find_min (rhsStop_exists rest) (Nat.lt_of_succ_lt_succ hn)
        ((rhsStop_succ_cons v rest j).1 hp)

theorem greedyRHS_eq_take_drop (vs : List Py) :
    greedyRHS vs = (vs.take (specStop vs), vs.drop (specStop vs)) := by
  induction vs with
  | nil =>
    have h0 : specStop ([] : List Py) = 0 :=
      (Nat.find_eq_zero _).2 (Or.inl (Nat.le_refl 0))
    simp [greedyRHS, h0]
  | cons v rest ih =>
    by_cases h : isMarkerHead rest = true
    · have h0 : specStop (v :: rest) = 0 := by
        apply (Nat.find_eq_zero _).2
        unfold rhsStop
        exact Or.inr (by simpa using h)
      simp [greedyRHS, h, h0]
    · have h' : isMarkerHead rest = false := by
        cases hm : isMarkerHead rest with
        | true => exact absurd hm h
        | false => rfl
      have hstep := specStop_cons_of_not_marker v rest h'
      simp [greedyRHS, h', hstep, ih]

/-! ### Lemmas about map updates (for C7) -/

theorem hasKey_updateMap_of {m : ParamMap} {k : String}
    (h : hasKey m k = true) (k' : String) (v : Py) :
    hasKey (updateMap m k' v) k = true := by
  induction m with
  | nil => simp [hasKey] at h
  | cons kv rest ih =>
    obtain ⟨a, b⟩ := kv
    by_cases ha : a = k'
    · simp only [updateMap, if_pos ha, hasKey]
      simp only [hasKey] at h
      rcases Bool.or_eq_true_iff.1 h with h1 | h2
      · have : a = k := of_decide_eq_true h1
        exact Bool.or_eq_true_iff.2 (Or.inl (decide_eq_true (ha ▸ this)))
      · exact Bool.or_eq_true_iff.2 (Or.inr h2)
    · simp only [updateMap, if_neg ha, hasKey]
      simp only [hasKey] at h
      rcases Bool.or_eq_true_iff.1 h with h1 | h2
      · exact Bool.or_eq_true_iff.2 (Or.inl h1)
      · exact Bool.or_eq_true_iff.2 (Or.inr (ih h2))

theorem hasKey_updateAll_of {m : ParamMap} {ps : ParamMap} {k : String}
    (h : hasKey m k = true) : hasKey (updateAll m ps) k = true := by
  unfold updateAll
  induction ps generalizing m with
  | nil => exact h
  | cons p rest ih => exact ih (hasKey_updateMap_of h p.1 p.2)

/-! ### The claims -/

/-- C5: when an assignment marker is resolved, the code's RHS extraction
(`extractRHS`, source lines 63–68) coincides with the specification's
wording (`specExtractRHS`): a single item when only one item remains or
the item two positions ahead is the marker; otherwise the run of
consecutive items up to the least point where the lookahead shows the
next-but-one item is the marker — the RHS stops exactly where the next
variable name begins. -/
theorem C5_extractRHS_matches_spec (vs : List Py) :
    extractRHS vs = specExtractRHS vs := by
  unfold extractRHS specExtractRHS
  rw [isMarkerHead_drop_two]
  split
  · rw [List.drop_one]
  · rw [greedyRHS_eq_take_drop]

/-- C6: parsing `max_cpu_seconds=45\n\ntest1 max_cpu_seconds=10
expected_stdout=kkk\n` yields exactly one descriptor: label `test1`,
`max_cpu_seconds` `"10"` (the statement's own value overriding the earlier
global `"45"`), `expected_stdout` `"kkk"`, the given source name, and
line number `"3"`. -/
theorem C6_override_scenario (sn : String) :
    parse_stream "max_cpu_seconds=45\n\ntest1 max_cpu_seconds=10 expected_stdout=kkk\n" sn =
      Except.ok [[("max_cpu_seconds", Py.str "10"), ("source_name", Py.str sn),
        ("line_number", Py.str "3"), ("label", Py.str "test1"),
        ("expected_stdout", Py.str "kkk")]] := rfl

/-- C8: parsing the statement `x=[1,2,3]` produces the value list
`[x, marker, ["1","2","3"]]` — the numeric leaves stringized — and the
assignment resolver binds `x` to exactly that ordered sequence of
strings. -/
theorem C8_stringized_list (sn : String) :
    parse_values "x=[1,2,3]\n" sn =
      Except.ok [(1, [Py.str "x", Py.pyNone,
        Py.list [Py.str "1", Py.str "2", Py.str "3"]])] ∧
    parse_line_assignments
        [Py.str "x", Py.pyNone, Py.list [Py.str "1", Py.str "2", Py.str "3"]] sn 1 =
      Except.ok [("x", Py.list [Py.str "1", Py.str "2", Py.str "3"])] :=
  ⟨rfl, rfl⟩

/-- C9: a labeled statement that itself assigns `source_name` and
`line_number` ends up with the assigned values in the descriptor's
provenance fields — the statement's parameters are merged after the
provenance is written. -/
theorem C9_provenance_overridden (sn : String) :
    parse_stream "t source_name=foo line_number=99\n" sn =
      Except.ok [[("source_name", Py.str "foo"), ("line_number", Py.str "99"),
        ("label", Py.str "t")]] := rfl

/-- C1: evaluating the code at the failing input `t x=[1+1]`: the
structural literal is handed to the general expression evaluator, the
arithmetic `1+1` is computed, and `x` is bound to `["2"]` — no syntax
error is raised, contradicting the claim that only pure literals are
accepted and no general-purpose evaluation is performed. -/
theorem C1_general_eval_at_failing_input :
    parse_stream "t x=[1+1]\n" "f" =
      Except.ok [[("source_name", Py.str "f"), ("line_number", Py.str "1"),
        ("label", Py.str "t"), ("x", Py.list [Py.str "2"])]] := rfl

/-- C2: evaluating the code at the failing input `# a=b`: the comment
token contains `=`, and the `=`-in-token check runs before the
insignificant-token skip, so the parse raises a `TestSpecificationError`
instead of returning the empty descriptor list; a comment without `=` is
skipped as the claim describes. -/
theorem C2_comment_with_eq_rejected :
    parse_stream "# a=b\n" "f" = Except.error (SpecErr.eqInToken "f" 1 0) ∧
    parse_stream "# hello\n\n" "f" = Except.ok [] :=
  ⟨rfl, rfl⟩

/-- C3 counterexample: a structural literal with trailing content does not
fail at its statement — here the trailing `+ [` makes the parser
accumulate the next line and evaluate `[1] + [\n2]` to a value, so the
parse succeeds, contradicting the claim that trailing content after a
structural literal is an immediate lexical syntax error. -/
theorem C3_trailing_content_can_succeed :
    parse_stream "t x=[1] + [\n2]\n" "f" =
      Except.ok [[("source_name", Py.str "f"), ("line_number", Py.str "1"),
        ("label", Py.str "t"), ("x", Py.list [Py.str "1", Py.str "2"])]] := rfl

/-- C3 (amended): trailing content after a structural literal makes the
evaluation of the statement remainder fail, which is caught as an
incomplete statement; the parser keeps accumulating input lines (line 2
here is consumed and never parsed as its own statement) and, when no
extension ever evaluates, reports an unclosed expression at end of input,
referencing the statement's first line. -/
theorem C3_trailing_content_accumulates :
    parse_stream "x=[1] y\nfoo\n" "f" =
      Except.error (SpecErr.unclosedExpr "f" 1) := rfl

/-- C4 counterexample: `x=y=z` does not raise a `TestSpecificationError`:
the greedy RHS loop consumes zero items for `x`, so the statement parses
with `x` bound to the empty list and `y` bound to `z`, contradicting the
claim that every assignment binds a non-empty right-hand side. -/
theorem C4_empty_rhs_not_rejected :
    parse_stream "t x=y=z\n" "f" =
      Except.ok [[("source_name", Py.str "f"), ("line_number", Py.str "1"),
        ("label", Py.str "t"), ("x", Py.list []), ("y", Py.str "z")]] := rfl

/-- C4 (amended): an assignment whose right-hand side is missing — nothing
follows the marker, or the item directly after the marker is itself a
marker — fails with a `TestSpecificationError`, whatever the pending word
and the assignments accumulated so far; but an empty right-hand side is
not rejected: resolving `x=y=z` succeeds, binding `x` to the empty list
and `y` to `z`. -/
theorem C4_missing_rhs_fails_empty_rhs_allowed (source : String) (lineNo : Nat)
    (fuel : Nat) (rest : List Py) (asg : ParamMap) (lw : Option String)
    (h : rest.isEmpty = true ∨ isMarkerHead rest = true) :
    plaGo source lineNo (fuel + 1) (Py.pyNone :: rest) asg lw =
      Except.error (SpecErr.badAssignment source lineNo) ∧
    parse_line_assignments
        [Py.str "x", Py.pyNone, Py.str "y", Py.pyNone, Py.str "z"] source lineNo =
      Except.ok [("x", Py.list []), ("y", Py.str "z")] := by
  constructor
  · cases lw with
    | none => simp [plaGo, isMarker]
    | some w =>
      rcases h with h | h
      · simp [plaGo, isMarker, h]
      · simp [plaGo, isMarker, h]
  · rfl

/-- C4 witness: the missing-RHS cases at concrete inputs — a marker with
nothing after it (`x=`) and a marker directly followed by a marker
(`x= =y`) — both with the `x=y=z` resolution alongside. -/
theorem C4_missing_rhs_fails_empty_rhs_allowed_witness :
    (plaGo "f" 1 1 [Py.pyNone] [] (some "x") =
        Except.error (SpecErr.badAssignment "f" 1) ∧
      parse_line_assignments
          [Py.str "x", Py.pyNone, Py.str "y", Py.pyNone, Py.str "z"] "f" 1 =
        Except.ok [("x", Py.list []), ("y", Py.str "z")]) ∧
    (plaGo "f" 1 1 [Py.pyNone, Py.pyNone, Py.str "y"] [] (some "x") =
        Except.error (SpecErr.badAssignment "f" 1) ∧
      parse_line_assignments
          [Py.str "x", Py.pyNone, Py.str "y", Py.pyNone, Py.str "z"] "f" 1 =
        Except.ok [("x", Py.list []), ("y", Py.str "z")]) :=
  ⟨C4_missing_rhs_fails_empty_rhs_allowed "f" 1 0 [] [] (some "x")
      (Or.inl rfl),
   C4_missing_rhs_fails_empty_rhs_allowed "f" 1 0 [Py.pyNone, Py.str "y"] []
      (some "x") (Or.inr rfl)⟩

/-- C7: processing one statement never shrinks the global state: when the
statement's parameter map carries a label the globals are returned
unchanged, and in every case each key present before is present after. -/
theorem C7_globals_frame (source : String) (g : ParamMap) (ts : List ParamMap)
    (e : Nat × List Py) (g' : ParamMap) (ts' : List ParamMap)
    (h : stepAgg source (g, ts) e = Except.ok (g', ts')) :
    (∀ params, parse_line_assignments e.2 source e.1 = Except.ok params →
      hasKey params "label" = true → g' = g) ∧
    (∀ k, hasKey g k = true → hasKey g' k = true) := by
  unfold stepAgg at h
  by_cases he : e.2.isEmpty = true
  · rw [if_pos he] at h
    injection h with h'
    injection h' with h1 h2
    constructor
    · intro params _ _
      exact h1.symm
    · intro k hk
      rw [← h1]
      exact hk
  · rw [if_neg he] at h
    cases hpla : parse_line_assignments e.2 source e.1 with
    | error err =>
      rw [hpla] at h
      exact absurd h (by simp)
    | ok params =>
      rw [hpla] at h
      dsimp only at h
      by_cases hl : hasKey params "label" = true
      · rw [if_pos hl] at h
        injection h with h'
        injection h' with h1 h2
        constructor
        · intro params' _ _
          exact h1.symm
        · intro k hk
          rw [← h1]
          exact hk
      · rw [if_neg hl] at h
        injection h with h'
        injection h' with h1 h2
        constructor
        · intro params' hp' hl'
          injection hp' with hpp
          subst hpp
          exact absurd hl' hl
        · intro k hk
          rw [← h1]
          exact hasKey_updateAll_of hk

/-- C7 witness: a labeled statement processed over the globals
`{a: "1"}` leaves them unchanged and keeps the key `a`. -/
theorem C7_globals_frame_witness :
    ([("a", Py.str "1")] : ParamMap) = [("a", Py.str "1")] ∧
    hasKey ([("a", Py.str "1")] : ParamMap) "a" = true :=
  ⟨(C7_globals_frame "f" [("a", Py.str "1")] [] (1, [Py.str "t"])
      [("a", Py.str "1")]
      [[("a", Py.str "1"), ("source_name", Py.str "f"),
        ("line_number", Py.str "1"), ("label", Py.str "t")]] rfl).1
      [("label", Py.str "t")] rfl rfl,
   (C7_globals_frame "f" [("a", Py.str "1")] [] (1, [Py.str "t"])
      [("a", Py.str "1")]
      [[("a", Py.str "1"), ("source_name", Py.str "f"),
        ("line_number", Py.str "1"), ("label", Py.str "t")]] rfl).2
      "a" rfl⟩

/-- C10: a statement with no bare word but an explicit `label=v`
assignment behaves exactly like a bare-word label: it yields one
descriptor labelled `aaa`, nothing is merged into the global state (the
following statement's descriptor contains no `x`), and the resulting
descriptor agrees key-for-key with the bare-word variant. -/
theorem C10_explicit_label_assignment (sn : String) :
    parse_stream "x=1 label=aaa\nt2\n" sn =
      Except.ok [[("source_name", Py.str sn), ("line_number", Py.str "1"),
        ("x", Py.str "1"), ("label", Py.str "aaa")],
       [("source_name", Py.str sn), ("line_number", Py.str "2"),
        ("label", Py.str "t2")]] ∧
    parse_stream "aaa x=1\nt2\n" sn =
      Except.ok [[("source_name", Py.str sn), ("line_number", Py.str "1"),
        ("label", Py.str "aaa"), ("x", Py.str "1")],
       [("source_name", Py.str sn), ("line_number", Py.str "2"),
        ("label", Py.str "t2")]] ∧
    ∀ k, lookupMap [("source_name", Py.str sn), ("line_number", Py.str "1"),
        ("x", Py.str "1"), ("label", Py.str "aaa")] k =
      lookupMap [("source_name", Py.str sn), ("line_number", Py.str "1"),
        ("label", Py.str "aaa"), ("x", Py.str "1")] k := by
  refine ⟨rfl, rfl, ?_⟩
  intro k
  by_cases h1 : "source_name" = k
  · simp [lookupMap, h1]
  · by_cases h2 : "line_number" = k
    · simp [lookupMap, h1, h2]
    · by_cases h3 : "x" = k
      · have h4 : ¬("label" = k) := fun hl =>
          absurd (h3.trans hl.symm) (by decide)
        simp [lookupMap, h1, h2, h3, h4]
      · by_cases h4 : "label" = k
        · simp [lookupMap, h1, h2, h3, h4]
        · simp [lookupMap, h1, h2, h3, h4]

end Autotest

